import Mathlib

/-!
Verification development for the Notee note-taking application's core
editing logic: the document model (`types/note.ts`), the construction
helpers (`utils/block-factories.ts`), the structural reducer
(`state/editor-state.ts`), the span/text codec and the legacy-block to
HTML migration, and the TipTap list-keymap decision logic
(`components/editor/tiptap/listKeymap.ts`).

Conventions of the embedding:
* TypeScript optional boolean fields become `Option Bool` (absent = `none`).
* `Date.now()` and `generateId()` are effects; the reducer is therefore
  parameterized by an `Env` supplying the clock reading for the dispatch
  and the stream of ids that successive `generateId()` calls return.
* JavaScript array-index assignment `items[i] = v` can create holes
  (reading a hole yields `undefined`), so list-block items are embedded
  as `Option (List TextSpan)` cells; a hole is `none`.
* Code that would throw on `undefined` (the HTML migration mapping over
  a hole) returns `Option String`, `none` being the exception path.
-/

namespace Notee

/-- `TextSpan` from `types/note.ts`: text plus independent optional
bold/italic/underline flags (absent = not applied). -/
structure TextSpan where
  text : String
  bold : Option Bool := none
  italic : Option Bool := none
  underline : Option Bool := none
deriving Repr, DecidableEq

/-- `ChecklistItem` from `types/note.ts`. -/
structure ChecklistItem where
  id : String
  checked : Bool
  content : List TextSpan
deriving Repr, DecidableEq

/-- A list-block item cell: a run of styled spans, or `none` for a hole
created by out-of-range JavaScript index assignment (`undefined`). -/
abbrev ListCell := Option (List TextSpan)

/-- The `Block` discriminated union from `types/note.ts`. -/
inductive Block where
  | paragraph (id : String) (content : List TextSpan)
  | heading (id : String) (level : Nat) (content : List TextSpan)
  | list (id : String) (ordered : Bool) (items : List ListCell)
  | checklist (id : String) (items : List ChecklistItem)
deriving Repr, DecidableEq

/-- The `type` discriminant tag of a block. -/
inductive BType where
  | paragraph | heading | list | checklist
deriving Repr, DecidableEq

/-- The `id` field shared by every `Block` variant. -/
def Block.id : Block → String
  | .paragraph i _ => i
  | .heading i _ _ => i
  | .list i _ _ => i
  | .checklist i _ => i

/-- The `type` discriminant of a block. -/
def Block.btype : Block → BType
  | .paragraph _ _ => .paragraph
  | .heading _ _ _ => .heading
  | .list _ _ _ => .list
  | .checklist _ _ => .checklist

/-- `Note` from `types/note.ts`. -/
structure Note where
  id : String
  title : String
  body : String
  blocks : List Block
  createdAt : Nat
  updatedAt : Nat
deriving Repr, DecidableEq

/-- `EditorState` from `state/editor-state.ts`. -/
structure EditorState where
  notes : List Note
  activeNoteId : Option String
deriving Repr, DecidableEq

/-- `initialEditorState` from `state/editor-state.ts`. -/
def initialEditorState : EditorState := { notes := [], activeNoteId := none }

-- ---------------------------------------------------------------------------
-- Content codec (`spansToText` / `textToSpans` helpers file)
-- ---------------------------------------------------------------------------

/-- `spansToText`: flatten an array of `TextSpan` into a single plain
string (`spans.map(s => s.text).join('')`). -/
def spansToText (spans : List TextSpan) : String :=
  String.join (spans.map (·.text))

/-- `textToSpans`: wrap a plain string in a single unstyled span. -/
def textToSpans (text : String) : List TextSpan :=
  [{ text := text }]

-- ---------------------------------------------------------------------------
-- Block factories (`utils/block-factories.ts`)
-- ---------------------------------------------------------------------------

/-- `plainSpan`: a plain (unstyled) text span. -/
def plainSpan (text : String) : TextSpan := { text := text }

/-- `emptyContent`: one empty span — the "blank line" convention. -/
def emptyContent : List TextSpan := [plainSpan ""]

/-- `createParagraphBlock`; the id is the value `generateId()` returned. -/
def createParagraphBlock (id : String)
    (content : List TextSpan := emptyContent) : Block :=
  .paragraph id content

/-- `createHeadingBlock`; the id is the value `generateId()` returned. -/
def createHeadingBlock (id : String) (level : Nat)
    (content : List TextSpan := emptyContent) : Block :=
  .heading id level content

/-- `createListBlock`; the id is the value `generateId()` returned. -/
def createListBlock (id : String) (ordered : Bool)
    (items : List ListCell := [some emptyContent]) : Block :=
  .list id ordered items

/-- `createChecklistItem`; the id is the value `generateId()` returned. -/
def createChecklistItem (id : String)
    (content : List TextSpan := emptyContent) (checked : Bool := false) :
    ChecklistItem :=
  { id := id, checked := checked, content := content }

/-- `createNote` with no arguments, as invoked by the reducer's
`CREATE_NOTE` case: `noteId` and `blockId` are the two successive
`generateId()` results and `t` is the `Date.now()` reading. -/
def createNote (noteId blockId : String) (t : Nat) : Note :=
  { id := noteId
    title := ""
    body := "<p></p>"
    blocks := [createParagraphBlock blockId]
    createdAt := t
    updatedAt := t }

-- ---------------------------------------------------------------------------
-- Legacy-block → HTML migration (`blocksToHtml` helpers file)
-- ---------------------------------------------------------------------------

/-- `text.replace(/c/g, r)` for a single-character pattern: replace
every occurrence of the character `c` by the string `r`. -/
def replaceAllChar (s : String) (c : Char) (r : String) : String :=
  ⟨s.data.foldr (fun ch acc => if ch = c then r.data ++ acc else ch :: acc) []⟩

/-- `esc`: HTML-escape the four entity characters, in source order
(`&` first, so entities introduced by the later passes survive). -/
def esc (text : String) : String :=
  replaceAllChar
    (replaceAllChar (replaceAllChar (replaceAllChar text '&' "&amp;") '<' "&lt;")
      '>' "&gt;")
    '\"' "&quot;"

/-- One span of `spansToHtml`: escape, return `''` when empty, otherwise
wrap with the strong/em/u tags in source order. -/
def spanToHtml (s : TextSpan) : String :=
  let html := esc s.text
  if html = "" then ""
  else
    let html := if s.bold.getD false then "<strong>" ++ html ++ "</strong>" else html
    let html := if s.italic.getD false then "<em>" ++ html ++ "</em>" else html
    if s.underline.getD false then "<u>" ++ html ++ "</u>" else html

/-- `spansToHtml`: map and join. -/
def spansToHtml (spans : List TextSpan) : String :=
  String.join (spans.map spanToHtml)

/-- `spansToHtml(spans) || ''` — JavaScript falsy fallback on the
empty string. -/
def orEmpty (s : String) : String := if s = "" then "" else s

/-- One `<li>` of a list block.  A hole cell (`undefined`) would make
`spansToHtml` throw, embedded as `none`. -/
def listItemHtml (cell : ListCell) : Option String :=
  match cell with
  | none => none
  | some spans => some ("<li><p>" ++ orEmpty (spansToHtml spans) ++ "</p></li>")

/-- One checklist `<li>` with the checked attribute and checkbox markup. -/
def checkItemHtml (item : ChecklistItem) : String :=
  let checked := if item.checked then "true" else "false"
  "<li data-type=\"taskItem\" data-checked=\"" ++ checked ++ "\"><label><input type=\"checkbox\"" ++
    (if item.checked then " checked=\"checked\"" else "") ++
    "><span></span></label><div><p>" ++ orEmpty (spansToHtml item.content) ++
    "</p></div></li>"

/-- `blockToHtml`: render one block variant to a markup fragment. -/
def blockToHtml : Block → Option String
  | .paragraph _ content =>
      some ("<p>" ++ orEmpty (spansToHtml content) ++ "</p>")
  | .heading _ level content =>
      some ("<h" ++ toString level ++ ">" ++ orEmpty (spansToHtml content) ++
        "</h" ++ toString level ++ ">")
  | .list _ ordered items => do
      let tag := if ordered then "ol" else "ul"
      let parts ← items.mapM listItemHtml
      some ("<" ++ tag ++ ">" ++ String.join parts ++ "</" ++ tag ++ ">")
  | .checklist _ items =>
      some ("<ul data-type=\"taskList\">" ++
        String.join (items.map checkItemHtml) ++ "</ul>")

/-- `blocksToHtml`: the migration entry point.  Empty input yields the
canonical empty-document markup; so does an all-empty rendering
(`html || '<p></p>'`). -/
def blocksToHtml (blocks : List Block) : Option String :=
  if blocks.length = 0 then some "<p></p>"
  else do
    let parts ← blocks.mapM blockToHtml
    let html := String.join parts
    some (if html = "" then "<p></p>" else html)

-- ---------------------------------------------------------------------------
-- Reducer actions (`state/editor-state.ts`)
-- ---------------------------------------------------------------------------

/-- `Partial<Block>` — the `UPDATE_BLOCK` patch payload.  Every field of
every variant may be present; the merge `{...b, ...patch, id: b.id,
type: b.type}` overrides the fields relevant to the original block's
variant and restores `id` and `type` from the original. -/
structure BlockPatch where
  id : Option String := none
  type : Option BType := none
  level : Option Nat := none
  ordered : Option Bool := none
  content : Option (List TextSpan) := none
  listItems : Option (List ListCell) := none
  checkItems : Option (List ChecklistItem) := none
deriving Repr, DecidableEq

/-- The `EditorAction` discriminated union. -/
inductive EditorAction where
  | loadNotes (notes : List Note)
  | createNote
  | deleteNote (noteId : String)
  | setActiveNote (noteId : Option String)
  | updateTitle (noteId : String) (title : String)
  | updateBody (noteId : String) (body : String)
  | addBlock (noteId : String) (afterBlockId : String) (block : Block)
  | removeBlock (noteId : String) (blockId : String)
  | updateBlock (noteId : String) (blockId : String) (patch : BlockPatch)
  | replaceBlock (noteId : String) (blockId : String) (block : Block)
  | moveBlock (noteId : String) (blockId : String) (up : Bool)
  | updateBlockContent (noteId : String) (blockId : String) (content : List TextSpan)
  | updateListItem (noteId : String) (blockId : String) (itemIndex : Nat) (content : List TextSpan)
  | addListItem (noteId : String) (blockId : String) (afterIndex : Nat)
  | removeListItem (noteId : String) (blockId : String) (itemIndex : Nat)
  | toggleChecklistItem (noteId : String) (blockId : String) (itemId : String)
  | updateChecklistItem (noteId : String) (blockId : String) (itemId : String) (content : List TextSpan)
  | addChecklistItem (noteId : String) (blockId : String) (afterItemId : String)
  | removeChecklistItem (noteId : String) (blockId : String) (itemId : String)
deriving Repr, DecidableEq

/-- The effect environment of one reducer dispatch: the `Date.now()`
reading and the stream of ids successive `generateId()` calls return. -/
structure Env where
  time : Nat
  ids : Nat → String

-- ---------------------------------------------------------------------------
-- Reducer helpers (`state/editor-state.ts`)
-- ---------------------------------------------------------------------------

/-- `mapNote`: a new notes array with every note of the given id
replaced by `fn`'s result. -/
def mapNote (notes : List Note) (noteId : String) (fn : Note → Note) :
    List Note :=
  notes.map fun n => if n.id = noteId then fn n else n

/-- `mapBlock`: a new blocks array with every block of the given id
replaced by `fn`'s result. -/
def mapBlock (blocks : List Block) (blockId : String) (fn : Block → Block) :
    List Block :=
  blocks.map fun b => if b.id = blockId then fn b else b

/-- `touch`: stamp the updatedAt timestamp with the clock reading. -/
def touch (t : Nat) (note : Note) : Note :=
  { note with updatedAt := t }

/-- `blocks.splice(insertAt, 0, x)` for `0 ≤ insertAt`: insert `x` at
position `insertAt`, clamping past-the-end positions to an append
(exactly the JavaScript clamp). -/
def spliceInsert (l : List α) (i : Nat) (x : α) : List α :=
  l.take i ++ x :: l.drop i

/-- JavaScript `l[i] = v` on an array: in range it replaces; past the
end it grows the array to length `i + 1`, filling the gap with holes
(`undef`). -/
def jsSetElem (l : List α) (i : Nat) (v : α) (undef : α) : List α :=
  if i < l.length then l.set i v
  else l ++ List.replicate (i - l.length) undef ++ [v]

/-- `items.filter((_, idx) => idx !== i)` — drop the element at index
`i`, keep everything else. -/
def removeAtIdx (l : List α) (i : Nat) : List α :=
  ((l.enum.filter fun p => !(p.1 = i)).map Prod.snd)

/-- The `UPDATE_BLOCK` merge: `{...b, ...patch, id: b.id, type: b.type}`
— the patch's fields override those of the original's variant, while
`id` and the `type` discriminant always come from the original. -/
def mergePatch (b : Block) (p : BlockPatch) : Block :=
  match b with
  | .paragraph i c => .paragraph i (p.content.getD c)
  | .heading i l c => .heading i (p.level.getD l) (p.content.getD c)
  | .list i o its => .list i (p.ordered.getD o) (p.listItems.getD its)
  | .checklist i its => .checklist i (p.checkItems.getD its)

/-- The `MOVE_BLOCK` body: find the block, compute the signed target
index, bail at the boundaries, otherwise swap the two positions. -/
def moveBlockIn (blocks : List Block) (blockId : String) (up : Bool) :
    Option (List Block) :=
  match blocks.findIdx? (fun b => b.id = blockId) with
  | none => none
  | some idx =>
    let targetIdx : Int := if up then (idx : Int) - 1 else (idx : Int) + 1
    if targetIdx < 0 ∨ (blocks.length : Int) ≤ targetIdx then none
    else
      let t := targetIdx.toNat
      let dflt := Block.paragraph "" []
      some ((blocks.set idx (blocks.getD t dflt)).set t (blocks.getD idx dflt))

-- ---------------------------------------------------------------------------
-- The reducer (`editorReducer`)
-- ---------------------------------------------------------------------------

/-- `editorReducer`: pure `(state, action) → state`, with the dispatch's
clock reading and fresh-id stream supplied by `env`. -/
def editorReducer (env : Env) (state : EditorState) (action : EditorAction) :
    EditorState :=
  match action with
  | .loadNotes notes => { state with notes := notes }
  | .createNote =>
      let note := createNote (env.ids 0) (env.ids 1) env.time
      { state with notes := note :: state.notes, activeNoteId := some note.id }
  | .deleteNote noteId =>
      let remaining := state.notes.filter fun n => !(n.id = noteId)
      { state with
          notes := remaining
          activeNoteId :=
            if state.activeNoteId = some noteId then remaining.head?.map (·.id)
            else state.activeNoteId }
  | .setActiveNote noteId => { state with activeNoteId := noteId }
  | .updateTitle noteId title =>
      { state with
          notes := mapNote state.notes noteId fun n =>
            touch env.time { n with title := title } }
  | .updateBody noteId body =>
      { state with
          notes := mapNote state.notes noteId fun n =>
            touch env.time { n with body := body } }
  | .addBlock noteId afterBlockId block =>
      { state with
          notes := mapNote state.notes noteId fun n =>
            let insertAt :=
              match n.blocks.findIdx? (fun b => b.id = afterBlockId) with
              | some idx => idx + 1
              | none => n.blocks.length
            touch env.time { n with blocks := spliceInsert n.blocks insertAt block } }
  | .removeBlock noteId blockId =>
      { state with
          notes := mapNote state.notes noteId fun n =>
            let blocks := n.blocks.filter fun b => !(b.id = blockId)
            touch env.time
              { n with
                  blocks :=
                    if 0 < blocks.length then blocks
                    else [createParagraphBlock (env.ids 0)] } }
  | .updateBlock noteId blockId patch =>
      { state with
          notes := mapNote state.notes noteId fun n =>
            touch env.time
              { n with blocks := mapBlock n.blocks blockId (mergePatch · patch) } }
  | .replaceBlock noteId blockId block =>
      { state with
          notes := mapNote state.notes noteId fun n =>
            touch env.time
              { n with blocks := mapBlock n.blocks blockId fun _ => block } }
  | .moveBlock noteId blockId up =>
      { state with
          notes := mapNote state.notes noteId fun n =>
            match moveBlockIn n.blocks blockId up with
            | none => n
            | some blocks => touch env.time { n with blocks := blocks } }
  | .updateBlockContent noteId blockId content =>
      { state with
          notes := mapNote state.notes noteId fun n =>
            touch env.time
              { n with
                  blocks := mapBlock n.blocks blockId fun b =>
                    match b with
                    | .paragraph i _ => .paragraph i content
                    | .heading i l _ => .heading i l content
                    | b => b } }
  | .updateListItem noteId blockId itemIndex content =>
      { state with
          notes := mapNote state.notes noteId fun n =>
            touch env.time
              { n with
                  blocks := mapBlock n.blocks blockId fun b =>
                    match b with
                    | .list i o items =>
                        .list i o (jsSetElem items itemIndex (some content) none)
                    | b => b } }
  | .addListItem noteId blockId afterIndex =>
      { state with
          notes := mapNote state.notes noteId fun n =>
            touch env.time
              { n with
                  blocks := mapBlock n.blocks blockId fun b =>
                    match b with
                    | .list i o items =>
                        .list i o (spliceInsert items (afterIndex + 1) (some [plainSpan ""]))
                    | b => b } }
  | .removeListItem noteId blockId itemIndex =>
      { state with
          notes := mapNote state.notes noteId fun n =>
            touch env.time
              { n with
                  blocks := mapBlock n.blocks blockId fun b =>
                    match b with
                    | .list i o items =>
                        let items := removeAtIdx items itemIndex
                        .list i o
                          (if 0 < items.length then items else [some [plainSpan ""]])
                    | b => b } }
  | .toggleChecklistItem noteId blockId itemId =>
      { state with
          notes := mapNote state.notes noteId fun n =>
            touch env.time
              { n with
                  blocks := mapBlock n.blocks blockId fun b =>
                    match b with
                    | .checklist i items =>
                        .checklist i (items.map fun item =>
                          if item.id = itemId then { item with checked := !item.checked }
                          else item)
                    | b => b } }
  | .updateChecklistItem noteId blockId itemId content =>
      { state with
          notes := mapNote state.notes noteId fun n =>
            touch env.time
              { n with
                  blocks := mapBlock n.blocks blockId fun b =>
                    match b with
                    | .checklist i items =>
                        .checklist i (items.map fun item =>
                          if item.id = itemId then { item with content := content }
                          else item)
                    | b => b } }
  | .addChecklistItem noteId blockId afterItemId =>
      { state with
          notes := mapNote state.notes noteId fun n =>
            touch env.time
              { n with
                  blocks := mapBlock n.blocks blockId fun b =>
                    match b with
                    | .checklist i items =>
                        let insertAt :=
                          match items.findIdx? (fun it => it.id = afterItemId) with
                          | some idx => idx + 1
                          | none => items.length
                        .checklist i
                          (spliceInsert items insertAt (createChecklistItem (env.ids 0)))
                    | b => b } }
  | .removeChecklistItem noteId blockId itemId =>
      { state with
          notes := mapNote state.notes noteId fun n =>
            touch env.time
              { n with
                  blocks := mapBlock n.blocks blockId fun b =>
                    match b with
                    | .checklist i items =>
                        let items := items.filter fun it => !(it.id = itemId)
                        .checklist i
                          (if 0 < items.length then items
                           else [createChecklistItem (env.ids 0)])
                    | b => b } }

/-- Apply a finite sequence of dispatches, each with its own effect
environment, in order. -/
def applySteps (s : EditorState) (steps : List (Env × EditorAction)) :
    EditorState :=
  steps.foldl (fun st p => editorReducer p.1 st p.2) s

/-- `state.notes.find(n => n.id === noteId)` — lookup used to phrase
theorems about one note of the result. -/
def findNote (s : EditorState) (noteId : String) : Option Note :=
  s.notes.find? fun n => n.id = noteId

-- ---------------------------------------------------------------------------
-- Well-formedness (the structural invariants of §3 of the data model)
-- ---------------------------------------------------------------------------

/-- A block is well-formed when its List/Checklist items are nonempty. -/
def wfBlockB : Block → Bool
  | .paragraph _ _ => true
  | .heading _ _ _ => true
  | .list _ _ items => 0 < items.length
  | .checklist _ items => 0 < items.length

/-- A note is well-formed when it has at least one block and every
list/checklist block has at least one item. -/
def wfNoteB (n : Note) : Bool :=
  0 < n.blocks.length && n.blocks.all wfBlockB

/-- A state is well-formed when every note is. -/
def wfStateB (s : EditorState) : Bool :=
  s.notes.all wfNoteB

/-- An action's payload is well-formed: notes supplied by `LOAD_NOTES`
are well-formed, blocks embedded in `ADD_BLOCK`/`REPLACE_BLOCK` are
well-formed, and an `UPDATE_BLOCK` patch never sets an empty items
sequence. -/
def wfActionB : EditorAction → Bool
  | .loadNotes notes => notes.all wfNoteB
  | .addBlock _ _ b => wfBlockB b
  | .replaceBlock _ _ b => wfBlockB b
  | .updateBlock _ _ p =>
      (match p.listItems with
       | none => true
       | some l => 0 < l.length) &&
      (match p.checkItems with
       | none => true
       | some l => 0 < l.length)
  | _ => true

-- ---------------------------------------------------------------------------
-- List navigation decision engine (`listKeymap.ts`)
-- ---------------------------------------------------------------------------

/-- One ProseMirror node, exposing exactly the read access the keymap
uses: `type.name`, `isTextblock`, `textContent` and `childCount`. -/
structure PMNode where
  typeName : String
  isTextblock : Bool
  textContent : String
  childCount : Nat
deriving Repr, DecidableEq

/-- Whether a node-type name is a list-item-like node. -/
def isItemName (s : String) : Bool :=
  s = "listItem" || s = "taskItem"

/-- The walk `for (d = …; d > 0; d--)` over the cursor's ancestors,
deepest first: the input list is the resolved position's node chain
reversed, its last element the depth-0 root, which the walk excludes. -/
def findItemUp : List PMNode → Option PMNode
  | [] => none
  | [_] => none
  | n :: rest => if isItemName n.typeName then some n else findItemUp rest

/-- `listItemTypeName`: the node-type name of the innermost enclosing
`listItem`/`taskItem`, walking up from the cursor (`$from.depth` down to
depth 1), or `none` outside any list.  `path` lists the resolved
position's nodes from the depth-0 root down to `$from.parent`. -/
def listItemTypeName (path : List PMNode) : Option String :=
  (findItemUp path.reverse).map (·.typeName)

/-- `isAtEmptyListItem`: the cursor's parent is a textblock with no
text, and the nearest enclosing list item (searched from depth
`$from.depth - 1` down to depth 1) has exactly one child. -/
def isAtEmptyListItem (path : List PMNode) : Bool :=
  match path.reverse with
  | [] => false
  | parent :: above =>
    if !parent.isTextblock then false
    else if !(parent.textContent.length = 0) then false
    else
      match findItemUp above with
      | some item => item.childCount = 1
      | none => false

/-- The decision a keymap handler resolves to. -/
inductive Decision where
  | split | lift | indent | outdent | defer
deriving Repr, DecidableEq

/-- `CustomListItem`'s Enter handler: `none` when it returns `false`
(cursor not in a `listItem`), otherwise lift on an empty item and split
on a non-empty one. -/
def customListItemEnter (path : List PMNode) : Option Decision :=
  if !(listItemTypeName path = some "listItem") then none
  else if isAtEmptyListItem path then some .lift
  else some .split

/-- `CustomTaskItem`'s Enter handler, scoped to `taskItem`. -/
def customTaskItemEnter (path : List PMNode) : Option Decision :=
  if !(listItemTypeName path = some "taskItem") then none
  else if isAtEmptyListItem path then some .lift
  else some .split

/-- The combined Enter decision: the first handler that does not return
`false` wins; with none firing the event defers to default handling. -/
def enterDecision (path : List PMNode) : Decision :=
  ((customListItemEnter path).orElse fun _ => customTaskItemEnter path).getD .defer

/-- The identity-relevant projection of a block: its id together with
its `type` discriminant. -/
def idType (b : Block) : String × BType := (b.id, b.btype)

-- ---------------------------------------------------------------------------
-- Shared helper lemmas
-- ---------------------------------------------------------------------------

theorem list_map_self {α : Type _} {l : List α} {f : α → α}
    (h : ∀ x ∈ l, f x = x) : l.map f = l := by
  rw [List.map_congr_left h]
  exact List.map_id l

theorem mapNote_cons (n : Note) (rest : List Note) (nid : String)
    (f : Note → Note) :
    mapNote (n :: rest) nid f
      = (if n.id = nid then f n else n) :: mapNote rest nid f := by
  simp [mapNote]

theorem find?_mapNote (notes : List Note) (nid : String) (f : Note → Note)
    (hid : ∀ n, (f n).id = n.id) :
    (mapNote notes nid f).find? (fun n => n.id = nid)
      = (notes.find? (fun n => n.id = nid)).map f := by
  induction notes with
  | nil => rfl
  | cons n rest ih =>
    rw [mapNote_cons]
    by_cases h : n.id = nid
    · simp [List.find?_cons, h, hid]
    · simp [List.find?_cons, h, ih]

theorem findNote_reduce (s : EditorState) (nid : String)
    (f : Note → Note) (hid : ∀ n, (f n).id = n.id) :
    findNote { s with notes := mapNote s.notes nid f } nid
      = (findNote s nid).map f := by
  simp [findNote, find?_mapNote _ _ _ hid]

theorem mergePatch_idType (b : Block) (p : BlockPatch) :
    idType (mergePatch b p) = idType b := by
  cases b <;> rfl

theorem mapBlock_idType (blocks : List Block) (bid : String)
    (f : Block → Block) (h : ∀ b, idType (f b) = idType b) :
    (mapBlock blocks bid f).map idType = blocks.map idType := by
  unfold mapBlock
  rw [List.map_map]
  apply List.map_congr_left
  intro b _
  by_cases hb : b.id = bid <;> simp [hb, h]

theorem mapBlock_cons (b : Block) (rest : List Block) (bid : String)
    (f : Block → Block) :
    mapBlock (b :: rest) bid f
      = (if b.id = bid then f b else b) :: mapBlock rest bid f := by
  simp [mapBlock]

theorem find?_mapBlock (blocks : List Block) (bid : String)
    (f : Block → Block) (hid : ∀ b, (f b).id = b.id) :
    (mapBlock blocks bid f).find? (fun b => b.id = bid)
      = (blocks.find? (fun b => b.id = bid)).map f := by
  induction blocks with
  | nil => rfl
  | cons b rest ih =>
    rw [mapBlock_cons]
    by_cases h : b.id = bid
    · simp [List.find?_cons, h, hid]
    · simp [List.find?_cons, h, ih]

-- ---------------------------------------------------------------------------
-- C4 — codec round trip
-- ---------------------------------------------------------------------------

/-- C4: for every string `s`, flattening the span sequence produced by
unflattening gives back `s`: `spansToText (textToSpans s) = s`. -/
theorem spansToText_textToSpans (s : String) :
    spansToText (textToSpans s) = s := by
  simp [spansToText, textToSpans, String.join]

-- ---------------------------------------------------------------------------
-- C8 — canonical empty-document markup
-- ---------------------------------------------------------------------------

/-- C8: migrating the empty block sequence and migrating one blank
paragraph (a single empty span) both produce the canonical non-empty
empty-document markup `<p></p>`. -/
theorem blocksToHtml_empty_canonical :
    blocksToHtml [] = some "<p></p>" ∧
    (∀ id, blocksToHtml [Block.paragraph id [{ text := "" }]] = some "<p></p>") ∧
    "<p></p>" ≠ "" :=
  ⟨rfl, fun _ => rfl, by decide⟩

-- ---------------------------------------------------------------------------
-- C7 — a patch preserves block identity and discriminant
-- ---------------------------------------------------------------------------

/-- C7: `UPDATE_BLOCK` leaves every block's id and `type` discriminant
unchanged — over every state, every target, every patch payload
(including patches carrying `id` or `type` fields). -/
theorem updateBlock_preserves_idType (env : Env) (s : EditorState)
    (nid bid : String) (p : BlockPatch) :
    (editorReducer env s (.updateBlock nid bid p)).notes.map
        (fun n => n.blocks.map idType)
      = s.notes.map (fun n => n.blocks.map idType) := by
  simp only [editorReducer]
  unfold mapNote
  rw [List.map_map]
  apply List.map_congr_left
  intro n _
  by_cases hn : n.id = nid
  · simp only [hn, if_pos rfl, Function.comp_apply, touch]
    exact mapBlock_idType _ _ _ (fun b => mergePatch_idType b p)
  · simp [hn]

-- ---------------------------------------------------------------------------
-- C5 — removing the only block substitutes a fresh empty paragraph
-- ---------------------------------------------------------------------------

/-- C5: on a note whose blocks sequence is exactly `[b]`, `REMOVE_BLOCK`
with `b`'s id yields exactly one Paragraph block holding a single empty
span, under a fresh id differing from the removed block's id. -/
theorem removeBlock_single_substitutes (env : Env) (s : EditorState)
    (nid : String) (b : Block) (n : Note)
    (hfind : findNote s nid = some n)
    (hblocks : n.blocks = [b])
    (hfresh : ¬ env.ids 0 = b.id) :
    (findNote (editorReducer env s (.removeBlock nid b.id)) nid).map (·.blocks)
        = some [Block.paragraph (env.ids 0) [{ text := "" }]] ∧
    (Block.paragraph (env.ids 0) [{ text := "" }]).id ≠ b.id := by
  constructor
  · have h := findNote_reduce s nid
      (fun n => touch env.time
        { n with
            blocks :=
              let blocks := n.blocks.filter fun x => !(x.id = b.id)
              if 0 < blocks.length then blocks
              else [createParagraphBlock (env.ids 0)] })
      (fun _ => rfl)
    simp only [editorReducer]
    rw [h, hfind]
    simp [touch, hblocks, List.filter, createParagraphBlock, emptyContent,
      plainSpan]
  · simpa [Block.id] using hfresh

/-- Witness for C5 at a concrete one-block note. -/
theorem removeBlock_single_substitutes_witness :
    (findNote
        (editorReducer ⟨5, fun _ => "fresh"⟩
          ⟨[⟨"n1", "t", "", [Block.paragraph "b1" [{ text := "" }]], 0, 0⟩],
            some "n1"⟩
          (.removeBlock "n1" "b1"))
        "n1").map (·.blocks)
      = some [Block.paragraph "fresh" [{ text := "" }]] ∧
    (Block.paragraph "fresh" [{ text := "" }]).id ≠ "b1" :=
  removeBlock_single_substitutes ⟨5, fun _ => "fresh"⟩
    ⟨[⟨"n1", "t", "", [Block.paragraph "b1" [{ text := "" }]], 0, 0⟩],
      some "n1"⟩
    "n1" (Block.paragraph "b1" [{ text := "" }])
    ⟨"n1", "t", "", [Block.paragraph "b1" [{ text := "" }]], 0, 0⟩
    (by decide) rfl (by decide)

-- ---------------------------------------------------------------------------
-- C6 — DELETE_NOTE active-pointer transfer
-- ---------------------------------------------------------------------------

/-- C6: `DELETE_NOTE` removes the note; deleting the active note hands
the pointer to the first remaining note, or to none when no note
remains; deleting a non-active note leaves the pointer unchanged. -/
theorem deleteNote_active (env : Env) (s : EditorState) (nid : String) :
    ((editorReducer env s (.deleteNote nid)).notes
        = s.notes.filter fun n => !(n.id = nid)) ∧
    (∀ m rest, s.activeNoteId = some nid →
        s.notes.filter (fun n => !(n.id = nid)) = m :: rest →
        (editorReducer env s (.deleteNote nid)).activeNoteId = some m.id) ∧
    (s.activeNoteId = some nid →
        s.notes.filter (fun n => !(n.id = nid)) = [] →
        (editorReducer env s (.deleteNote nid)).activeNoteId = none) ∧
    (¬ s.activeNoteId = some nid →
        (editorReducer env s (.deleteNote nid)).activeNoteId
          = s.activeNoteId) := by
  refine ⟨rfl, ?_, ?_, ?_⟩
  · intro m rest hact hrem
    simp [editorReducer, hact, hrem]
  · intro hact hrem
    simp [editorReducer, hact, hrem]
  · intro hact
    simp [editorReducer, hact]

/-- Witness for C6: deleting the active of two notes activates the
remaining one; deleting a non-active note keeps the pointer. -/
theorem deleteNote_active_witness :
    (editorReducer ⟨0, fun _ => ""⟩
        ⟨[⟨"n1", "", "", [], 0, 0⟩, ⟨"n2", "", "", [], 0, 0⟩], some "n1"⟩
        (.deleteNote "n1")).activeNoteId = some "n2" ∧
    (editorReducer ⟨0, fun _ => ""⟩
        ⟨[⟨"n1", "", "", [], 0, 0⟩, ⟨"n2", "", "", [], 0, 0⟩], some "n1"⟩
        (.deleteNote "n2")).activeNoteId = some "n1" :=
  ⟨(deleteNote_active ⟨0, fun _ => ""⟩
      ⟨[⟨"n1", "", "", [], 0, 0⟩, ⟨"n2", "", "", [], 0, 0⟩], some "n1"⟩
      "n1").2.1 ⟨"n2", "", "", [], 0, 0⟩ [] rfl (by decide),
   (deleteNote_active ⟨0, fun _ => ""⟩
      ⟨[⟨"n1", "", "", [], 0, 0⟩, ⟨"n2", "", "", [], 0, 0⟩], some "n1"⟩
      "n2").2.2.2 (by decide)⟩

-- ---------------------------------------------------------------------------
-- C10 — UPDATE_LIST_ITEM writes out-of-range indices unconditionally
-- ---------------------------------------------------------------------------

/-- C10: on an existing note and list block, `UPDATE_LIST_ITEM` with an
out-of-range index is not a no-op: the items array grows to length
`itemIndex + 1`, the written content becomes the last entry, and the gap
(when `itemIndex > items.length`) is filled with holes (`undefined`). -/
theorem updateListItem_out_of_range (env : Env) (s : EditorState)
    (nid bid : String) (i : Nat) (content : List TextSpan)
    (ordered : Bool) (items : List ListCell) (n : Note)
    (hfind : findNote s nid = some n)
    (hblock : n.blocks.find? (fun b => b.id = bid)
        = some (.list bid ordered items))
    (hrange : items.length ≤ i) :
    ((findNote (editorReducer env s (.updateListItem nid bid i content))
          nid).bind
        (fun n' => n'.blocks.find? (fun b => b.id = bid)))
      = some (.list bid ordered
          (items ++ List.replicate (i - items.length) none ++ [some content])) ∧
    (items ++ List.replicate (i - items.length) none
        ++ [some content]).length = i + 1 ∧
    items ++ List.replicate (i - items.length) none ++ [some content]
      ≠ items := by
  refine ⟨?_, ?_, ?_⟩
  · have h := findNote_reduce s nid
      (fun n => touch env.time
        { n with
            blocks := mapBlock n.blocks bid fun b =>
              match b with
              | .list j o its =>
                  .list j o (jsSetElem its i (some content) none)
              | b => b })
      (fun m => rfl)
    simp only [editorReducer]
    rw [h, hfind]
    simp only [Option.map_some', Option.some_bind, touch]
    rw [find?_mapBlock _ _ _ (fun b => by cases b <;> rfl), hblock]
    simp [jsSetElem, Nat.not_lt.mpr hrange]
  · simp only [List.length_append, List.length_replicate, List.length_cons,
      List.length_nil]
    omega
  · intro h
    have := congrArg List.length h
    simp only [List.length_append, List.length_replicate, List.length_cons,
      List.length_nil] at this
    omega

/-- Witness for C10: writing index 2 of a one-item list grows it to
three entries with a hole in the middle. -/
theorem updateListItem_out_of_range_witness :
    ((findNote (editorReducer ⟨7, fun _ => "g"⟩
          ⟨[⟨"n1", "", "",
              [Block.list "L" false [some [{ text := "a" }]]], 0, 0⟩],
            none⟩
          (.updateListItem "n1" "L" 2 [{ text := "x" }])) "n1").bind
        (fun n' => n'.blocks.find? (fun b => b.id = "L")))
      = some (.list "L" false
          ([some [{ text := "a" }]] ++ List.replicate (2 - 1) none
            ++ [some [{ text := "x" }]])) ∧
    (([some [{ text := "a" }]] : List ListCell) ++ List.replicate (2 - 1) none
        ++ ([some [{ text := "x" }]] : List ListCell)).length = 2 + 1 ∧
    ([some [{ text := "a" }]] : List ListCell) ++ List.replicate (2 - 1) none
        ++ ([some [{ text := "x" }]] : List ListCell)
      ≠ ([some [{ text := "a" }]] : List ListCell) :=
  updateListItem_out_of_range ⟨7, fun _ => "g"⟩
    ⟨[⟨"n1", "", "", [Block.list "L" false [some [{ text := "a" }]]], 0, 0⟩],
      none⟩
    "n1" "L" 2 [{ text := "x" }] false [some [{ text := "a" }]]
    (⟨"n1", "", "", [Block.list "L" false [some [{ text := "a" }]]], 0, 0⟩ :
      Note)
    (by decide) (by decide) (by decide)

-- ---------------------------------------------------------------------------
-- C3 — Enter on a textually-empty list/task item: lift vs split
-- ---------------------------------------------------------------------------

/-- C3: with the cursor in a textblock with no text directly inside a
list/task item (itself below at least a root), Enter resolves to `lift`
when the item has exactly one child and to `split` when it has more
(the textually-empty item still holding a nested sub-list). -/
theorem enter_on_empty_item (upper : List PMNode) (item parent : PMNode)
    (hupper : upper ≠ [])
    (hitem : isItemName item.typeName = true)
    (hpar : parent.isTextblock = true)
    (hptext : parent.textContent = "")
    (hpname : isItemName parent.typeName = false) :
    enterDecision (upper ++ [item, parent])
      = if item.childCount = 1 then Decision.lift else Decision.split := by
  obtain ⟨u, us, hu⟩ : ∃ u us, upper.reverse = u :: us := by
    cases h : upper.reverse with
    | nil => exact absurd (List.reverse_eq_nil_iff.mp h) hupper
    | cons u us => exact ⟨u, us, rfl⟩
  have hrev : (upper ++ [item, parent]).reverse
      = parent :: item :: u :: us := by
    simp [List.reverse_append, hu]
  have hfind : findItemUp ((upper ++ [item, parent]).reverse)
      = some item := by
    rw [hrev]
    simp [findItemUp, hpname, hitem]
  have hname : listItemTypeName (upper ++ [item, parent])
      = some item.typeName := by
    unfold listItemTypeName
    rw [hfind]
    rfl
  have hempty : isAtEmptyListItem (upper ++ [item, parent])
      = decide (item.childCount = 1) := by
    rw [isAtEmptyListItem, hrev]
    simp [hpar, hptext, findItemUp, hpname, hitem]
  rcases Bool.or_eq_true_iff.mp hitem with hli | hti
  · have hl : item.typeName = "listItem" := by simpa using hli
    by_cases hc : item.childCount = 1 <;>
      simp [enterDecision, customListItemEnter, hname, hl, hempty, hc]
  · have ht : item.typeName = "taskItem" := by simpa using hti
    by_cases hc : item.childCount = 1 <;>
      simp [enterDecision, customListItemEnter, customTaskItemEnter, hname,
        ht, hempty, hc]

/-- Witness for C3: a single-child empty list item lifts; the same item
with a nested sub-list child splits. -/
theorem enter_on_empty_item_witness :
    enterDecision [⟨"doc", false, "", 1⟩, ⟨"bulletList", false, "", 1⟩,
        ⟨"listItem", false, "", 1⟩, ⟨"paragraph", true, "", 0⟩]
      = Decision.lift ∧
    enterDecision [⟨"doc", false, "", 1⟩, ⟨"bulletList", false, "", 1⟩,
        ⟨"listItem", false, "sub", 2⟩, ⟨"paragraph", true, "", 0⟩]
      = Decision.split := by
  constructor
  · have h := enter_on_empty_item
      [⟨"doc", false, "", 1⟩, ⟨"bulletList", false, "", 1⟩]
      ⟨"listItem", false, "", 1⟩ ⟨"paragraph", true, "", 0⟩
      (by decide) (by decide) rfl rfl (by decide)
    simpa using h
  · have h := enter_on_empty_item
      [⟨"doc", false, "", 1⟩, ⟨"bulletList", false, "", 1⟩]
      ⟨"listItem", false, "sub", 2⟩ ⟨"paragraph", true, "", 0⟩
      (by decide) (by decide) rfl rfl (by decide)
    simpa using h

-- ---------------------------------------------------------------------------
-- C9 — updatedAt stamping
-- ---------------------------------------------------------------------------

/-- The note id targeted by the actions whose handler stamps `touch`
unconditionally on the matched note (every content-mutating action
except `MOVE_BLOCK`, which bails without touching at the boundaries or
on a missing block). -/
def touchTargets : EditorAction → Option String
  | .updateTitle n _ => some n
  | .updateBody n _ => some n
  | .addBlock n _ _ => some n
  | .removeBlock n _ => some n
  | .updateBlock n _ _ => some n
  | .replaceBlock n _ _ => some n
  | .updateBlockContent n _ _ => some n
  | .updateListItem n _ _ _ => some n
  | .addListItem n _ _ => some n
  | .removeListItem n _ _ => some n
  | .toggleChecklistItem n _ _ => some n
  | .updateChecklistItem n _ _ _ => some n
  | .addChecklistItem n _ _ => some n
  | .removeChecklistItem n _ _ => some n
  | _ => none

theorem stamped_updatedAt (env : Env) (s : EditorState) (nid : String)
    (n : Note) (g : Note → Note) (hg : ∀ m, (g m).id = m.id)
    (h2 : findNote s nid = some n) :
    (findNote
          { s with notes := mapNote s.notes nid fun m => touch env.time (g m) }
          nid).map (·.updatedAt)
        = some env.time ∧
    (n.updatedAt < env.time →
      ∀ n', findNote
          { s with notes := mapNote s.notes nid fun m => touch env.time (g m) }
          nid = some n' →
        n.updatedAt < n'.updatedAt) := by
  have h := findNote_reduce s nid (fun m => touch env.time (g m))
    (fun m => hg m)
  rw [h, h2]
  refine ⟨rfl, ?_⟩
  intro hlt n' hn'
  have : n' = touch env.time (g n) := by
    simpa using hn'.symm
  rw [this]
  exact hlt

/-- Refutation of C9 as stated: `UPDATE_TITLE` is a content-mutating
action on an existing note, yet with the dispatch clock reading equal to
the note's previous `updatedAt` (two events in the same millisecond) the
stamped `updatedAt` equals the old value — it does not strictly
increase. -/
theorem updatedAt_not_strict_cex :
    touchTargets (.updateTitle "n1" "t2") = some "n1" ∧
    findNote (⟨[⟨"n1", "a", "", [], 0, 5⟩], none⟩ : EditorState) "n1"
      = some ⟨"n1", "a", "", [], 0, 5⟩ ∧
    (findNote
        (editorReducer ⟨5, fun _ => ""⟩
          (⟨[⟨"n1", "a", "", [], 0, 5⟩], none⟩ : EditorState)
          (.updateTitle "n1" "t2"))
        "n1").map (·.updatedAt) = some 5 ∧
    ¬ ((5 : Nat) < 5) := by
  refine ⟨rfl, by decide, by decide, by decide⟩

/-- C9 (amended): every content-mutating action other than `MOVE_BLOCK`
applied to an existing note stamps the note's `updatedAt` with the
dispatch clock reading; consequently `updatedAt` strictly increases
whenever that reading exceeds the prior stamp (the clock itself is only
non-decreasing across dispatches). -/
theorem mutation_stamps_updatedAt (env : Env) (s : EditorState)
    (a : EditorAction) (nid : String) (n : Note)
    (h1 : touchTargets a = some nid)
    (h2 : findNote s nid = some n) :
    (findNote (editorReducer env s a) nid).map (·.updatedAt)
        = some env.time ∧
    (n.updatedAt < env.time →
      ∀ n', findNote (editorReducer env s a) nid = some n' →
        n.updatedAt < n'.updatedAt) := by
  cases a with
  | loadNotes notes => simp [touchTargets] at h1
  | createNote => simp [touchTargets] at h1
  | deleteNote x => simp [touchTargets] at h1
  | setActiveNote x => simp [touchTargets] at h1
  | moveBlock x y z => simp [touchTargets] at h1
  | updateTitle noteId title =>
      obtain rfl : noteId = nid := by simpa [touchTargets] using h1
      exact stamped_updatedAt env s noteId n _ (fun m => rfl) h2
  | updateBody noteId body =>
      obtain rfl : noteId = nid := by simpa [touchTargets] using h1
      exact stamped_updatedAt env s noteId n _ (fun m => rfl) h2
  | addBlock noteId afterBlockId block =>
      obtain rfl : noteId = nid := by simpa [touchTargets] using h1
      exact stamped_updatedAt env s noteId n _ (fun m => rfl) h2
  | removeBlock noteId blockId =>
      obtain rfl : noteId = nid := by simpa [touchTargets] using h1
      exact stamped_updatedAt env s noteId n _ (fun m => rfl) h2
  | updateBlock noteId blockId patch =>
      obtain rfl : noteId = nid := by simpa [touchTargets] using h1
      exact stamped_updatedAt env s noteId n _ (fun m => rfl) h2
  | replaceBlock noteId blockId block =>
      obtain rfl : noteId = nid := by simpa [touchTargets] using h1
      exact stamped_updatedAt env s noteId n _ (fun m => rfl) h2
  | updateBlockContent noteId blockId content =>
      obtain rfl : noteId = nid := by simpa [touchTargets] using h1
      exact stamped_updatedAt env s noteId n _ (fun m => rfl) h2
  | updateListItem noteId blockId itemIndex content =>
      obtain rfl : noteId = nid := by simpa [touchTargets] using h1
      exact stamped_updatedAt env s noteId n _ (fun m => rfl) h2
  | addListItem noteId blockId afterIndex =>
      obtain rfl : noteId = nid := by simpa [touchTargets] using h1
      exact stamped_updatedAt env s noteId n _ (fun m => rfl) h2
  | removeListItem noteId blockId itemIndex =>
      obtain rfl : noteId = nid := by simpa [touchTargets] using h1
      exact stamped_updatedAt env s noteId n _ (fun m => rfl) h2
  | toggleChecklistItem noteId blockId itemId =>
      obtain rfl : noteId = nid := by simpa [touchTargets] using h1
      exact stamped_updatedAt env s noteId n _ (fun m => rfl) h2
  | updateChecklistItem noteId blockId itemId content =>
      obtain rfl : noteId = nid := by simpa [touchTargets] using h1
      exact stamped_updatedAt env s noteId n _ (fun m => rfl) h2
  | addChecklistItem noteId blockId afterItemId =>
      obtain rfl : noteId = nid := by simpa [touchTargets] using h1
      exact stamped_updatedAt env s noteId n _ (fun m => rfl) h2
  | removeChecklistItem noteId blockId itemId =>
      obtain rfl : noteId = nid := by simpa [touchTargets] using h1
      exact stamped_updatedAt env s noteId n _ (fun m => rfl) h2

/-- Witness for the amended C9: a title update at clock reading 9 on a
note last stamped at 5 yields `updatedAt = 9 > 5`. -/
theorem mutation_stamps_updatedAt_witness :
    (findNote
        (editorReducer ⟨9, fun _ => ""⟩
          (⟨[⟨"n1", "a", "", [], 0, 5⟩], none⟩ : EditorState)
          (.updateTitle "n1" "t2"))
        "n1").map (·.updatedAt) = some 9 :=
  (mutation_stamps_updatedAt ⟨9, fun _ => ""⟩
    (⟨[⟨"n1", "a", "", [], 0, 5⟩], none⟩ : EditorState)
    (.updateTitle "n1" "t2") "n1" ⟨"n1", "a", "", [], 0, 5⟩
    rfl (by decide)).1

-- ---------------------------------------------------------------------------
-- C2 — operations addressed to absent ids
-- ---------------------------------------------------------------------------

/-- The note id an action is addressed to (`LOAD_NOTES`, `CREATE_NOTE`
and `SET_ACTIVE_NOTE` carry no target note). -/
def addrNote : EditorAction → Option String
  | .deleteNote n => some n
  | .updateTitle n _ => some n
  | .updateBody n _ => some n
  | .addBlock n _ _ => some n
  | .removeBlock n _ => some n
  | .updateBlock n _ _ => some n
  | .replaceBlock n _ _ => some n
  | .moveBlock n _ _ => some n
  | .updateBlockContent n _ _ => some n
  | .updateListItem n _ _ _ => some n
  | .addListItem n _ _ => some n
  | .removeListItem n _ _ => some n
  | .toggleChecklistItem n _ _ => some n
  | .updateChecklistItem n _ _ _ => some n
  | .addChecklistItem n _ _ => some n
  | .removeChecklistItem n _ _ => some n
  | _ => none

/-- The (note id, block id) target of the block- and item-level actions,
excluding `MOVE_BLOCK` (which bails without touching) and `ADD_BLOCK`
(whose block id is an insertion anchor: when absent it appends). -/
def blockAddr : EditorAction → Option (String × String)
  | .removeBlock n b => some (n, b)
  | .updateBlock n b _ => some (n, b)
  | .replaceBlock n b _ => some (n, b)
  | .updateBlockContent n b _ => some (n, b)
  | .updateListItem n b _ _ => some (n, b)
  | .addListItem n b _ => some (n, b)
  | .removeListItem n b _ => some (n, b)
  | .toggleChecklistItem n b _ => some (n, b)
  | .updateChecklistItem n b _ _ => some (n, b)
  | .addChecklistItem n b _ => some (n, b)
  | .removeChecklistItem n b _ => some (n, b)
  | _ => none

/-- The (note id, block id, item id) target of the checklist-item
actions addressed by item id, excluding `ADD_CHECKLIST_ITEM` (whose item
id is an insertion anchor: when absent it appends). -/
def itemAddr : EditorAction → Option (String × String × String)
  | .toggleChecklistItem n b i => some (n, b, i)
  | .updateChecklistItem n b i _ => some (n, b, i)
  | .removeChecklistItem n b i => some (n, b, i)
  | _ => none

/-- The active pointer references an existing note or nothing. -/
def wfActiveB (s : EditorState) : Bool :=
  match s.activeNoteId with
  | none => true
  | some a => s.notes.any fun n => n.id = a

/-- A block holds no checklist item with the given id (and, when it is a
checklist, is structurally nonempty). -/
def noItemIn (b : Block) (iid : String) : Bool :=
  match b with
  | .checklist _ items =>
      (0 < items.length) && items.all fun it => !(it.id = iid)
  | _ => true

theorem mapNote_missing (notes : List Note) (nid : String) (f : Note → Note)
    (h : ∀ n ∈ notes, ¬ n.id = nid) : mapNote notes nid f = notes := by
  unfold mapNote
  apply list_map_self
  intro n hn
  rw [if_neg (h n hn)]

theorem mapBlock_missing (blocks : List Block) (bid : String)
    (f : Block → Block) (h : ∀ b ∈ blocks, ¬ b.id = bid) :
    mapBlock blocks bid f = blocks := by
  unfold mapBlock
  apply list_map_self
  intro b hb
  rw [if_neg (h b hb)]

theorem mapNote_congr (notes : List Note) (nid : String) (f g : Note → Note)
    (hc : ∀ n ∈ notes, n.id = nid → f n = g n) :
    mapNote notes nid f = mapNote notes nid g := by
  unfold mapNote
  apply List.map_congr_left
  intro n hn
  by_cases hid : n.id = nid
  · rw [if_pos hid, if_pos hid, hc n hn hid]
  · rw [if_neg hid, if_neg hid]

theorem mapBlock_id_of (blocks : List Block) (bid : String)
    (f : Block → Block) (hc : ∀ b ∈ blocks, b.id = bid → f b = b) :
    mapBlock blocks bid f = blocks := by
  unfold mapBlock
  apply list_map_self
  intro b hb
  by_cases hid : b.id = bid
  · rw [if_pos hid, hc b hb hid]
  · rw [if_neg hid]

theorem touch_only_of_block_missing (env : Env) (s : EditorState)
    (nid bid : String) (g : Block → Block)
    (hmiss : ∀ n ∈ s.notes, n.id = nid → ∀ b ∈ n.blocks, ¬ b.id = bid) :
    ({ s with
        notes := mapNote s.notes nid fun n =>
          touch env.time { n with blocks := mapBlock n.blocks bid g } } :
      EditorState)
      = { s with notes := mapNote s.notes nid (touch env.time) } := by
  congr 1
  apply mapNote_congr
  intro n hn hid
  rw [mapBlock_missing _ _ _ (hmiss n hn hid)]

/-- Refutation of C2 as stated: `REMOVE_BLOCK` addressed to an existing
note but to a block id absent from it still stamps the note's
`updatedAt` (here 0 → 5), so the state is not returned unchanged. -/
theorem missing_block_not_noop_cex :
    editorReducer ⟨5, fun _ => "f"⟩
        (⟨[⟨"n1", "", "", [Block.paragraph "b1" [{ text := "" }]], 0, 0⟩],
          none⟩ : EditorState)
        (.removeBlock "n1" "zz")
      ≠ ⟨[⟨"n1", "", "", [Block.paragraph "b1" [{ text := "" }]], 0, 0⟩],
          none⟩ := by
  decide

/-- C2 (amended): (1) an action addressed to a nonexistent note id
returns the state unchanged (for `DELETE_NOTE` provided the active
pointer is well-formed; `SET_ACTIVE_NOTE` retargets the pointer
unconditionally and carries no addressed note); (2) a non-insertion
action addressed to an existing note but a nonexistent block id leaves
all content unchanged yet still stamps the target note's `updatedAt`;
(3) except `MOVE_BLOCK`, which returns the state fully unchanged;
(4) the item-addressed checklist actions behave as (2) for a
nonexistent item id.  The insertion anchors (`ADD_BLOCK`,
`ADD_CHECKLIST_ITEM`) are excluded: an absent anchor appends. -/
theorem missing_id_policy (env : Env) (s : EditorState) (a : EditorAction) :
    (∀ nid, addrNote a = some nid → (∀ n ∈ s.notes, ¬ n.id = nid) →
        wfActiveB s = true → editorReducer env s a = s) ∧
    (∀ nid bid, blockAddr a = some (nid, bid) →
        (∀ n ∈ s.notes, n.id = nid →
          0 < n.blocks.length ∧ ∀ b ∈ n.blocks, ¬ b.id = bid) →
        editorReducer env s a
          = { s with notes := mapNote s.notes nid (touch env.time) }) ∧
    (∀ nid bid up, a = .moveBlock nid bid up →
        (∀ n ∈ s.notes, n.id = nid → ∀ b ∈ n.blocks, ¬ b.id = bid) →
        editorReducer env s a = s) ∧
    (∀ nid bid iid, itemAddr a = some (nid, bid, iid) →
        (∀ n ∈ s.notes, n.id = nid → ∀ b ∈ n.blocks, b.id = bid →
          noItemIn b iid = true) →
        editorReducer env s a
          = { s with notes := mapNote s.notes nid (touch env.time) }) := by
  cases a with
  | loadNotes notes =>
      refine ⟨?_, ?_, ?_, ?_⟩
      · intro nid h
        simp [addrNote] at h
      · intro nid bid h
        simp [blockAddr] at h
      · intro nid bid up h
        simp at h
      · intro nid bid iid h
        simp [itemAddr] at h
  | createNote =>
      refine ⟨?_, ?_, ?_, ?_⟩
      · intro nid h
        simp [addrNote] at h
      · intro nid bid h
        simp [blockAddr] at h
      · intro nid bid up h
        simp at h
      · intro nid bid iid h
        simp [itemAddr] at h
  | setActiveNote x =>
      refine ⟨?_, ?_, ?_, ?_⟩
      · intro nid h
        simp [addrNote] at h
      · intro nid bid h
        simp [blockAddr] at h
      · intro nid bid up h
        simp at h
      · intro nid bid iid h
        simp [itemAddr] at h
  | deleteNote nid0 =>
      refine ⟨?_, ?_, ?_, ?_⟩
      · intro nid h hmiss hact
        obtain rfl : nid0 = nid := by simpa [addrNote] using h
        have hfil : (s.notes.filter fun n => !(n.id = nid0)) = s.notes :=
          List.filter_eq_self.mpr fun n hn => by simp [hmiss n hn]
        have hx : ¬ s.activeNoteId = some nid0 := by
          intro hcontra
          unfold wfActiveB at hact
          rw [hcontra] at hact
          simp only [List.any_eq_true] at hact
          obtain ⟨n, hn, hid⟩ := hact
          exact hmiss n hn (by simpa using hid)
        simp [editorReducer, hfil, hx]
      · intro nid bid h
        simp [blockAddr] at h
      · intro nid bid up h
        simp at h
      · intro nid bid iid h
        simp [itemAddr] at h
  | updateTitle nid0 title =>
      refine ⟨?_, ?_, ?_, ?_⟩
      · intro nid h hmiss _
        obtain rfl : nid0 = nid := by simpa [addrNote] using h
        simp only [editorReducer]
        rw [mapNote_missing _ _ _ hmiss]
      · intro nid bid h
        simp [blockAddr] at h
      · intro nid bid up h
        simp at h
      · intro nid bid iid h
        simp [itemAddr] at h
  | updateBody nid0 body =>
      refine ⟨?_, ?_, ?_, ?_⟩
      · intro nid h hmiss _
        obtain rfl : nid0 = nid := by simpa [addrNote] using h
        simp only [editorReducer]
        rw [mapNote_missing _ _ _ hmiss]
      · intro nid bid h
        simp [blockAddr] at h
      · intro nid bid up h
        simp at h
      · intro nid bid iid h
        simp [itemAddr] at h
  | addBlock nid0 afterBlockId block =>
      refine ⟨?_, ?_, ?_, ?_⟩
      · intro nid h hmiss _
        obtain rfl : nid0 = nid := by simpa [addrNote] using h
        simp only [editorReducer]
        rw [mapNote_missing _ _ _ hmiss]
      · intro nid bid h
        simp [blockAddr] at h
      · intro nid bid up h
        simp at h
      · intro nid bid iid h
        simp [itemAddr] at h
  | removeBlock nid0 bid0 =>
      refine ⟨?_, ?_, ?_, ?_⟩
      · intro nid h hmiss _
        obtain rfl : nid0 = nid := by simpa [addrNote] using h
        simp only [editorReducer]
        rw [mapNote_missing _ _ _ hmiss]
      · intro nid bid h hp
        obtain ⟨rfl, rfl⟩ : nid0 = nid ∧ bid0 = bid := by
          simpa [blockAddr] using h
        simp only [editorReducer]
        congr 1
        apply mapNote_congr
        intro n hn hid
        obtain ⟨hlen, hnob⟩ := hp n hn hid
        have hfil : (n.blocks.filter fun b => !(b.id = bid0)) = n.blocks :=
          List.filter_eq_self.mpr fun b hb => by simp [hnob b hb]
        show touch env.time
            { n with
                blocks :=
                  if 0 < (n.blocks.filter fun b => !(b.id = bid0)).length
                  then n.blocks.filter fun b => !(b.id = bid0)
                  else [createParagraphBlock (env.ids 0)] }
          = touch env.time n
        rw [hfil, if_pos hlen]
      · intro nid bid up h
        simp at h
      · intro nid bid iid h
        simp [itemAddr] at h
  | updateBlock nid0 bid0 patch =>
      refine ⟨?_, ?_, ?_, ?_⟩
      · intro nid h hmiss _
        obtain rfl : nid0 = nid := by simpa [addrNote] using h
        simp only [editorReducer]
        rw [mapNote_missing _ _ _ hmiss]
      · intro nid bid h hp
        obtain ⟨rfl, rfl⟩ : nid0 = nid ∧ bid0 = bid := by
          simpa [blockAddr] using h
        simp only [editorReducer]
        exact touch_only_of_block_missing env s nid0 bid0 _
          fun n hn hid => (hp n hn hid).2
      · intro nid bid up h
        simp at h
      · intro nid bid iid h
        simp [itemAddr] at h
  | replaceBlock nid0 bid0 block =>
      refine ⟨?_, ?_, ?_, ?_⟩
      · intro nid h hmiss _
        obtain rfl : nid0 = nid := by simpa [addrNote] using h
        simp only [editorReducer]
        rw [mapNote_missing _ _ _ hmiss]
      · intro nid bid h hp
        obtain ⟨rfl, rfl⟩ : nid0 = nid ∧ bid0 = bid := by
          simpa [blockAddr] using h
        simp only [editorReducer]
        exact touch_only_of_block_missing env s nid0 bid0 _
          fun n hn hid => (hp n hn hid).2
      · intro nid bid up h
        simp at h
      · intro nid bid iid h
        simp [itemAddr] at h
  | moveBlock nid0 bid0 up0 =>
      refine ⟨?_, ?_, ?_, ?_⟩
      · intro nid h hmiss _
        obtain rfl : nid0 = nid := by simpa [addrNote] using h
        simp only [editorReducer]
        rw [mapNote_missing _ _ _ hmiss]
      · intro nid bid h
        simp [blockAddr] at h
      · intro nid bid up h hmiss
        obtain ⟨rfl, rfl, rfl⟩ : nid0 = nid ∧ bid0 = bid ∧ up0 = up := by
          simpa using h
        simp only [editorReducer]
        have hmap : (mapNote s.notes nid0 fun n =>
            match moveBlockIn n.blocks bid0 up0 with
            | none => n
            | some blocks => touch env.time { n with blocks := blocks })
            = s.notes := by
          unfold mapNote
          apply list_map_self
          intro n hn
          by_cases hid : n.id = nid0
          · have hfind : n.blocks.findIdx? (fun b => b.id = bid0) = none :=
              List.findIdx?_eq_none_iff.mpr fun b hb => by
                simp [hmiss n hn hid b hb]
            rw [if_pos hid]
            simp [moveBlockIn, hfind]
          · rw [if_neg hid]
        rw [hmap]
      · intro nid bid iid h
        simp [itemAddr] at h
  | updateBlockContent nid0 bid0 content =>
      refine ⟨?_, ?_, ?_, ?_⟩
      · intro nid h hmiss _
        obtain rfl : nid0 = nid := by simpa [addrNote] using h
        simp only [editorReducer]
        rw [mapNote_missing _ _ _ hmiss]
      · intro nid bid h hp
        obtain ⟨rfl, rfl⟩ : nid0 = nid ∧ bid0 = bid := by
          simpa [blockAddr] using h
        simp only [editorReducer]
        exact touch_only_of_block_missing env s nid0 bid0 _
          fun n hn hid => (hp n hn hid).2
      · intro nid bid up h
        simp at h
      · intro nid bid iid h
        simp [itemAddr] at h
  | updateListItem nid0 bid0 itemIndex content =>
      refine ⟨?_, ?_, ?_, ?_⟩
      · intro nid h hmiss _
        obtain rfl : nid0 = nid := by simpa [addrNote] using h
        simp only [editorReducer]
        rw [mapNote_missing _ _ _ hmiss]
      · intro nid bid h hp
        obtain ⟨rfl, rfl⟩ : nid0 = nid ∧ bid0 = bid := by
          simpa [blockAddr] using h
        simp only [editorReducer]
        exact touch_only_of_block_missing env s nid0 bid0 _
          fun n hn hid => (hp n hn hid).2
      · intro nid bid up h
        simp at h
      · intro nid bid iid h
        simp [itemAddr] at h
  | addListItem nid0 bid0 afterIndex =>
      refine ⟨?_, ?_, ?_, ?_⟩
      · intro nid h hmiss _
        obtain rfl : nid0 = nid := by simpa [addrNote] using h
        simp only [editorReducer]
        rw [mapNote_missing _ _ _ hmiss]
      · intro nid bid h hp
        obtain ⟨rfl, rfl⟩ : nid0 = nid ∧ bid0 = bid := by
          simpa [blockAddr] using h
        simp only [editorReducer]
        exact touch_only_of_block_missing env s nid0 bid0 _
          fun n hn hid => (hp n hn hid).2
      · intro nid bid up h
        simp at h
      · intro nid bid iid h
        simp [itemAddr] at h
  | removeListItem nid0 bid0 itemIndex =>
      refine ⟨?_, ?_, ?_, ?_⟩
      · intro nid h hmiss _
        obtain rfl : nid0 = nid := by simpa [addrNote] using h
        simp only [editorReducer]
        rw [mapNote_missing _ _ _ hmiss]
      · intro nid bid h hp
        obtain ⟨rfl, rfl⟩ : nid0 = nid ∧ bid0 = bid := by
          simpa [blockAddr] using h
        simp only [editorReducer]
        exact touch_only_of_block_missing env s nid0 bid0 _
          fun n hn hid => (hp n hn hid).2
      · intro nid bid up h
        simp at h
      · intro nid bid iid h
        simp [itemAddr] at h
  | toggleChecklistItem nid0 bid0 iid0 =>
      refine ⟨?_, ?_, ?_, ?_⟩
      · intro nid h hmiss _
        obtain rfl : nid0 = nid := by simpa [addrNote] using h
        simp only [editorReducer]
        rw [mapNote_missing _ _ _ hmiss]
      · intro nid bid h hp
        obtain ⟨rfl, rfl⟩ : nid0 = nid ∧ bid0 = bid := by
          simpa [blockAddr] using h
        simp only [editorReducer]
        exact touch_only_of_block_missing env s nid0 bid0 _
          fun n hn hid => (hp n hn hid).2
      · intro nid bid up h
        simp at h
      · intro nid bid iid h hp
        obtain ⟨rfl, rfl, rfl⟩ : nid0 = nid ∧ bid0 = bid ∧ iid0 = iid := by
          simpa [itemAddr] using h
        simp only [editorReducer]
        congr 1
        apply mapNote_congr
        intro n hn hid
        rw [mapBlock_id_of _ _ _ ?_]
        intro b hb hbid
        have hno := hp n hn hid b hb hbid
        cases b with
        | checklist i items =>
            simp only [noItemIn, Bool.and_eq_true, decide_eq_true_eq,
              List.all_eq_true, Bool.not_eq_eq_eq_not, Bool.not_true,
              decide_eq_false_iff_not] at hno
            show Block.checklist i (items.map fun item =>
                if item.id = iid0 then { item with checked := !item.checked }
                else item)
              = Block.checklist i items
            congr 1
            apply list_map_self
            intro it hit
            rw [if_neg (hno.2 it hit)]
        | paragraph i c => rfl
        | heading i l c => rfl
        | list i o its => rfl
  | updateChecklistItem nid0 bid0 iid0 content =>
      refine ⟨?_, ?_, ?_, ?_⟩
      · intro nid h hmiss _
        obtain rfl : nid0 = nid := by simpa [addrNote] using h
        simp only [editorReducer]
        rw [mapNote_missing _ _ _ hmiss]
      · intro nid bid h hp
        obtain ⟨rfl, rfl⟩ : nid0 = nid ∧ bid0 = bid := by
          simpa [blockAddr] using h
        simp only [editorReducer]
        exact touch_only_of_block_missing env s nid0 bid0 _
          fun n hn hid => (hp n hn hid).2
      · intro nid bid up h
        simp at h
      · intro nid bid iid h hp
        obtain ⟨rfl, rfl, rfl⟩ : nid0 = nid ∧ bid0 = bid ∧ iid0 = iid := by
          simpa [itemAddr] using h
        simp only [editorReducer]
        congr 1
        apply mapNote_congr
        intro n hn hid
        rw [mapBlock_id_of _ _ _ ?_]
        intro b hb hbid
        have hno := hp n hn hid b hb hbid
        cases b with
        | checklist i items =>
            simp only [noItemIn, Bool.and_eq_true, decide_eq_true_eq,
              List.all_eq_true, Bool.not_eq_eq_eq_not, Bool.not_true,
              decide_eq_false_iff_not] at hno
            show Block.checklist i (items.map fun item =>
                if item.id = iid0 then { item with content := content }
                else item)
              = Block.checklist i items
            congr 1
            apply list_map_self
            intro it hit
            rw [if_neg (hno.2 it hit)]
        | paragraph i c => rfl
        | heading i l c => rfl
        | list i o its => rfl
  | addChecklistItem nid0 bid0 afterItemId =>
      refine ⟨?_, ?_, ?_, ?_⟩
      · intro nid h hmiss _
        obtain rfl : nid0 = nid := by simpa [addrNote] using h
        simp only [editorReducer]
        rw [mapNote_missing _ _ _ hmiss]
      · intro nid bid h hp
        obtain ⟨rfl, rfl⟩ : nid0 = nid ∧ bid0 = bid := by
          simpa [blockAddr] using h
        simp only [editorReducer]
        exact touch_only_of_block_missing env s nid0 bid0 _
          fun n hn hid => (hp n hn hid).2
      · intro nid bid up h
        simp at h
      · intro nid bid iid h
        simp [itemAddr] at h
  | removeChecklistItem nid0 bid0 iid0 =>
      refine ⟨?_, ?_, ?_, ?_⟩
      · intro nid h hmiss _
        obtain rfl : nid0 = nid := by simpa [addrNote] using h
        simp only [editorReducer]
        rw [mapNote_missing _ _ _ hmiss]
      · intro nid bid h hp
        obtain ⟨rfl, rfl⟩ : nid0 = nid ∧ bid0 = bid := by
          simpa [blockAddr] using h
        simp only [editorReducer]
        exact touch_only_of_block_missing env s nid0 bid0 _
          fun n hn hid => (hp n hn hid).2
      · intro nid bid up h
        simp at h
      · intro nid bid iid h hp
        obtain ⟨rfl, rfl, rfl⟩ : nid0 = nid ∧ bid0 = bid ∧ iid0 = iid := by
          simpa [itemAddr] using h
        simp only [editorReducer]
        congr 1
        apply mapNote_congr
        intro n hn hid
        rw [mapBlock_id_of _ _ _ ?_]
        intro b hb hbid
        have hno := hp n hn hid b hb hbid
        cases b with
        | checklist i items =>
            simp only [noItemIn, Bool.and_eq_true, decide_eq_true_eq,
              List.all_eq_true, Bool.not_eq_eq_eq_not, Bool.not_true,
              decide_eq_false_iff_not] at hno
            have hfil : (items.filter fun it => !(it.id = iid0)) = items :=
              List.filter_eq_self.mpr fun it hit => by simp [hno.2 it hit]
            show Block.checklist i
                (if 0 < (items.filter fun it => !(it.id = iid0)).length
                 then items.filter fun it => !(it.id = iid0)
                 else [createChecklistItem (env.ids 0)])
              = Block.checklist i items
            rw [hfil, if_pos hno.1]
        | paragraph i c => rfl
        | heading i l c => rfl
        | list i o its => rfl

/-- Witness for the amended C2 at concrete states: a title update
addressed to a ghost note id is a strict no-op; `REMOVE_BLOCK` and
`TOGGLE_CHECKLIST_ITEM` addressed to absent block/item ids only stamp
the note; `MOVE_BLOCK` on an absent block id changes nothing. -/
theorem missing_id_policy_witness :
    editorReducer ⟨5, fun _ => "f"⟩
        (⟨[⟨"n1", "", "", [Block.paragraph "b1" [{ text := "" }]], 0, 0⟩],
          none⟩ : EditorState)
        (.updateTitle "ghost" "t")
      = ⟨[⟨"n1", "", "", [Block.paragraph "b1" [{ text := "" }]], 0, 0⟩],
          none⟩ ∧
    editorReducer ⟨5, fun _ => "f"⟩
        (⟨[⟨"n1", "", "", [Block.paragraph "b1" [{ text := "" }]], 0, 0⟩],
          none⟩ : EditorState)
        (.removeBlock "n1" "zz")
      = ⟨mapNote [⟨"n1", "", "", [Block.paragraph "b1" [{ text := "" }]],
            0, 0⟩] "n1" (touch 5),
          none⟩ ∧
    editorReducer ⟨5, fun _ => "f"⟩
        (⟨[⟨"n1", "", "", [Block.paragraph "b1" [{ text := "" }]], 0, 0⟩],
          none⟩ : EditorState)
        (.moveBlock "n1" "zz" true)
      = ⟨[⟨"n1", "", "", [Block.paragraph "b1" [{ text := "" }]], 0, 0⟩],
          none⟩ ∧
    editorReducer ⟨5, fun _ => "f"⟩
        (⟨[⟨"n1", "", "",
            [Block.checklist "B" [⟨"i1", false, [{ text := "" }]⟩]], 0, 0⟩],
          none⟩ : EditorState)
        (.toggleChecklistItem "n1" "B" "zz")
      = ⟨mapNote [⟨"n1", "", "",
            [Block.checklist "B" [⟨"i1", false, [{ text := "" }]⟩]], 0, 0⟩]
            "n1" (touch 5),
          none⟩ :=
  ⟨(missing_id_policy ⟨5, fun _ => "f"⟩
      (⟨[⟨"n1", "", "", [Block.paragraph "b1" [{ text := "" }]], 0, 0⟩],
        none⟩ : EditorState)
      (.updateTitle "ghost" "t")).1 "ghost" rfl (by decide) (by decide),
   (missing_id_policy ⟨5, fun _ => "f"⟩
      (⟨[⟨"n1", "", "", [Block.paragraph "b1" [{ text := "" }]], 0, 0⟩],
        none⟩ : EditorState)
      (.removeBlock "n1" "zz")).2.1 "n1" "zz" rfl (by decide),
   (missing_id_policy ⟨5, fun _ => "f"⟩
      (⟨[⟨"n1", "", "", [Block.paragraph "b1" [{ text := "" }]], 0, 0⟩],
        none⟩ : EditorState)
      (.moveBlock "n1" "zz" true)).2.2.1 "n1" "zz" true rfl (by decide),
   (missing_id_policy ⟨5, fun _ => "f"⟩
      (⟨[⟨"n1", "", "",
          [Block.checklist "B" [⟨"i1", false, [{ text := "" }]⟩]], 0, 0⟩],
        none⟩ : EditorState)
      (.toggleChecklistItem "n1" "B" "zz")).2.2.2 "n1" "B" "zz" rfl
      (by decide)⟩

-- ---------------------------------------------------------------------------
-- C1 — structural invariants across action sequences
-- ---------------------------------------------------------------------------

theorem wfNoteB_iff {n : Note} :
    wfNoteB n = true
      ↔ 0 < n.blocks.length ∧ ∀ b ∈ n.blocks, wfBlockB b = true := by
  simp [wfNoteB]

theorem spliceInsert_length (l : List α) (i : Nat) (x : α) :
    (spliceInsert l i x).length = l.length + 1 := by
  simp [spliceInsert]
  omega

theorem mem_spliceInsert {l : List α} {i : Nat} {x y : α}
    (h : y ∈ spliceInsert l i x) : y = x ∨ y ∈ l := by
  unfold spliceInsert at h
  rcases List.mem_append.mp h with h1 | h2
  · exact Or.inr (List.take_subset i l h1)
  · rcases List.mem_cons.mp h2 with h3 | h4
    · exact Or.inl h3
    · exact Or.inr (List.drop_subset i l h4)

theorem jsSetElem_length_pos (l : List α) (i : Nat) (v u : α) :
    0 < (jsSetElem l i v u).length := by
  unfold jsSetElem
  by_cases h : i < l.length
  · rw [if_pos h, List.length_set]
    omega
  · rw [if_neg h]
    simp

theorem getD_mem_or (l : List α) (j : Nat) (d : α) :
    l.getD j d ∈ l ∨ l.getD j d = d := by
  rw [List.getD_eq_getElem?_getD]
  cases h : l[j]? with
  | none => exact Or.inr rfl
  | some x => exact Or.inl (by simpa using List.getElem?_mem h)

theorem moveBlockIn_wf {blocks : List Block} {bid : String} {up : Bool}
    {bs : List Block} (h : moveBlockIn blocks bid up = some bs)
    (hlen : 0 < blocks.length)
    (hall : ∀ b ∈ blocks, wfBlockB b = true) :
    0 < bs.length ∧ ∀ b ∈ bs, wfBlockB b = true := by
  unfold moveBlockIn at h
  cases hf : blocks.findIdx? (fun b => b.id = bid) with
  | none =>
      rw [hf] at h
      exact absurd h (by simp)
  | some idx =>
      rw [hf] at h
      have h' : (if (if up then (idx : Int) - 1 else (idx : Int) + 1) < 0
            ∨ (blocks.length : Int)
              ≤ (if up then (idx : Int) - 1 else (idx : Int) + 1)
          then none
          else some ((blocks.set idx
              (blocks.getD
                (if up then (idx : Int) - 1 else (idx : Int) + 1).toNat
                (Block.paragraph "" []))).set
            (if up then (idx : Int) - 1 else (idx : Int) + 1).toNat
            (blocks.getD idx (Block.paragraph "" []))))
          = some bs := h
      by_cases hc : (if up then (idx : Int) - 1 else (idx : Int) + 1) < 0
          ∨ (blocks.length : Int)
            ≤ (if up then (idx : Int) - 1 else (idx : Int) + 1)
      · rw [if_pos hc] at h'
        exact absurd h' (by simp)
      · rw [if_neg hc] at h'
        have hbs : bs
            = (blocks.set idx
                (blocks.getD
                  (if up then (idx : Int) - 1 else (idx : Int) + 1).toNat
                  (Block.paragraph "" []))).set
              (if up then (idx : Int) - 1 else (idx : Int) + 1).toNat
              (blocks.getD idx (Block.paragraph "" [])) :=
          (Option.some.inj h').symm
        constructor
        · rw [hbs]
          simpa using hlen
        · intro b hb
          rw [hbs] at hb
          rcases List.mem_or_eq_of_mem_set hb with hb1 | rfl
          · rcases List.mem_or_eq_of_mem_set hb1 with hb2 | rfl
            · exact hall b hb2
            · rcases getD_mem_or blocks
                  (if up then (idx : Int) - 1 else (idx : Int) + 1).toNat
                  (Block.paragraph "" []) with hm | he
              · exact hall _ hm
              · rw [he]
                rfl
          · rcases getD_mem_or blocks idx (Block.paragraph "" []) with hm | he
            · exact hall _ hm
            · rw [he]
              rfl

theorem all_wfNote_mapNote (notes : List Note) (nid : String)
    (f : Note → Note)
    (hf : ∀ n ∈ notes, wfNoteB n = true → wfNoteB (f n) = true)
    (h : notes.all wfNoteB = true) :
    (mapNote notes nid f).all wfNoteB = true := by
  rw [List.all_eq_true] at h ⊢
  intro x hx
  unfold mapNote at hx
  obtain ⟨m, hm, rfl⟩ := List.mem_map.mp hx
  by_cases hid : m.id = nid
  · rw [if_pos hid]
    exact hf m hm (h m hm)
  · rw [if_neg hid]
    exact h m hm

theorem wfNoteB_mapBlock (t : Nat) (n : Note) (bid : String)
    (g : Block → Block)
    (hg : ∀ b, wfBlockB b = true → wfBlockB (g b) = true)
    (hn : wfNoteB n = true) :
    wfNoteB (touch t { n with blocks := mapBlock n.blocks bid g }) = true := by
  rw [wfNoteB_iff] at hn ⊢
  constructor
  · show 0 < (mapBlock n.blocks bid g).length
    simpa [mapBlock] using hn.1
  · intro b hb
    have hb' : b ∈ mapBlock n.blocks bid g := hb
    unfold mapBlock at hb'
    obtain ⟨m, hm, rfl⟩ := List.mem_map.mp hb'
    by_cases hid : m.id = bid
    · rw [if_pos hid]
      exact hg m (hn.2 m hm)
    · rw [if_neg hid]
      exact hn.2 m hm

theorem step_preserves_wf (env : Env) (s : EditorState) (a : EditorAction)
    (hs : wfStateB s = true) (ha : wfActionB a = true) :
    wfStateB (editorReducer env s a) = true := by
  unfold wfStateB at hs ⊢
  cases a with
  | loadNotes notes =>
      simpa [editorReducer, wfActionB] using ha
  | createNote =>
      simp only [editorReducer, List.all_cons, Bool.and_eq_true]
      exact ⟨by simp [createNote, wfNoteB, wfBlockB, createParagraphBlock], hs⟩
  | deleteNote nid =>
      simp only [editorReducer]
      rw [List.all_eq_true] at hs ⊢
      intro x hx
      exact hs x (List.mem_filter.mp hx).1
  | setActiveNote x =>
      simpa [editorReducer] using hs
  | updateTitle nid title =>
      simp only [editorReducer]
      exact all_wfNote_mapNote _ _ _ (fun n _ hn => hn) hs
  | updateBody nid body =>
      simp only [editorReducer]
      exact all_wfNote_mapNote _ _ _ (fun n _ hn => hn) hs
  | addBlock nid afterBlockId block =>
      simp only [editorReducer]
      apply all_wfNote_mapNote _ _ _ ?_ hs
      intro n _ hn
      rw [wfNoteB_iff] at hn ⊢
      constructor
      · show 0 < (spliceInsert n.blocks _ block).length
        rw [spliceInsert_length]
        omega
      · intro b hb
        rcases mem_spliceInsert hb with rfl | hmem
        · simpa [wfActionB] using ha
        · exact hn.2 b hmem
  | removeBlock nid blockId =>
      simp only [editorReducer]
      apply all_wfNote_mapNote _ _ _ ?_ hs
      intro n _ hn
      rw [wfNoteB_iff] at hn ⊢
      constructor
      · show 0 < (if 0 < (n.blocks.filter fun b => !(b.id = blockId)).length
            then n.blocks.filter fun b => !(b.id = blockId)
            else [createParagraphBlock (env.ids 0)]).length
        split
        · next hc => exact hc
        · simp
      · intro b hb
        have hb' : b ∈ (if 0 < (n.blocks.filter fun b => !(b.id = blockId)).length
            then n.blocks.filter fun b => !(b.id = blockId)
            else [createParagraphBlock (env.ids 0)]) := hb
        revert hb'
        split
        · intro hb'
          exact hn.2 b (List.mem_filter.mp hb').1
        · intro hb'
          rw [List.mem_singleton.mp hb']
          rfl
  | updateBlock nid blockId patch =>
      simp only [editorReducer]
      apply all_wfNote_mapNote _ _ _ ?_ hs
      intro n _ hn
      apply wfNoteB_mapBlock _ _ _ _ ?_ hn
      intro b hb
      simp only [wfActionB, Bool.and_eq_true] at ha
      cases b with
      | paragraph i c => rfl
      | heading i l c => rfl
      | list i o its =>
          show wfBlockB (.list i o (patch.listItems.getD its)) = true
          cases hpl : patch.listItems with
          | none => simpa using hb
          | some l =>
              rw [hpl] at ha
              simpa [wfBlockB] using ha.1
      | checklist i its =>
          show wfBlockB (.checklist i (patch.checkItems.getD its)) = true
          cases hpc : patch.checkItems with
          | none => simpa using hb
          | some l =>
              rw [hpc] at ha
              simpa [wfBlockB] using ha.2
  | replaceBlock nid blockId block =>
      simp only [editorReducer]
      apply all_wfNote_mapNote _ _ _ ?_ hs
      intro n _ hn
      apply wfNoteB_mapBlock _ _ _ _ ?_ hn
      intro b _
      simpa [wfActionB] using ha
  | moveBlock nid blockId up =>
      simp only [editorReducer]
      apply all_wfNote_mapNote _ _ _ ?_ hs
      intro n _ hn
      show wfNoteB (match moveBlockIn n.blocks blockId up with
        | none => n
        | some blocks => touch env.time { n with blocks := blocks }) = true
      cases hmv : moveBlockIn n.blocks blockId up with
      | none => exact hn
      | some bs =>
          rw [wfNoteB_iff] at hn
          obtain ⟨h1, h2⟩ := moveBlockIn_wf hmv hn.1 hn.2
          exact wfNoteB_iff.mpr ⟨h1, h2⟩
  | updateBlockContent nid blockId content =>
      simp only [editorReducer]
      apply all_wfNote_mapNote _ _ _ ?_ hs
      intro n _ hn
      apply wfNoteB_mapBlock _ _ _ _ ?_ hn
      intro b hb
      cases b with
      | paragraph i c => rfl
      | heading i l c => rfl
      | list i o its => exact hb
      | checklist i its => exact hb
  | updateListItem nid blockId itemIndex content =>
      simp only [editorReducer]
      apply all_wfNote_mapNote _ _ _ ?_ hs
      intro n _ hn
      apply wfNoteB_mapBlock _ _ _ _ ?_ hn
      intro b hb
      cases b with
      | paragraph i c => rfl
      | heading i l c => rfl
      | list i o its =>
          show wfBlockB (.list i o
            (jsSetElem its itemIndex (some content) none)) = true
          simp only [wfBlockB, decide_eq_true_eq]
          exact jsSetElem_length_pos its itemIndex (some content) none
      | checklist i its => exact hb
  | addListItem nid blockId afterIndex =>
      simp only [editorReducer]
      apply all_wfNote_mapNote _ _ _ ?_ hs
      intro n _ hn
      apply wfNoteB_mapBlock _ _ _ _ ?_ hn
      intro b hb
      cases b with
      | paragraph i c => rfl
      | heading i l c => rfl
      | list i o its =>
          show wfBlockB (.list i o
            (spliceInsert its (afterIndex + 1) (some [plainSpan ""]))) = true
          simp only [wfBlockB, decide_eq_true_eq, spliceInsert_length]
          omega
      | checklist i its => exact hb
  | removeListItem nid blockId itemIndex =>
      simp only [editorReducer]
      apply all_wfNote_mapNote _ _ _ ?_ hs
      intro n _ hn
      apply wfNoteB_mapBlock _ _ _ _ ?_ hn
      intro b hb
      cases b with
      | paragraph i c => rfl
      | heading i l c => rfl
      | list i o its =>
          show wfBlockB (.list i o
            (if 0 < (removeAtIdx its itemIndex).length
             then removeAtIdx its itemIndex
             else [some [plainSpan ""]])) = true
          simp only [wfBlockB, decide_eq_true_eq]
          split
          · next hc => exact hc
          · simp
      | checklist i its => exact hb
  | toggleChecklistItem nid blockId itemId =>
      simp only [editorReducer]
      apply all_wfNote_mapNote _ _ _ ?_ hs
      intro n _ hn
      apply wfNoteB_mapBlock _ _ _ _ ?_ hn
      intro b hb
      cases b with
      | paragraph i c => rfl
      | heading i l c => rfl
      | list i o its => exact hb
      | checklist i its =>
          show wfBlockB (.checklist i (its.map fun item =>
            if item.id = itemId then { item with checked := !item.checked }
            else item)) = true
          simpa [wfBlockB] using hb
  | updateChecklistItem nid blockId itemId content =>
      simp only [editorReducer]
      apply all_wfNote_mapNote _ _ _ ?_ hs
      intro n _ hn
      apply wfNoteB_mapBlock _ _ _ _ ?_ hn
      intro b hb
      cases b with
      | paragraph i c => rfl
      | heading i l c => rfl
      | list i o its => exact hb
      | checklist i its =>
          show wfBlockB (.checklist i (its.map fun item =>
            if item.id = itemId then { item with content := content }
            else item)) = true
          simpa [wfBlockB] using hb
  | addChecklistItem nid blockId afterItemId =>
      simp only [editorReducer]
      apply all_wfNote_mapNote _ _ _ ?_ hs
      intro n _ hn
      apply wfNoteB_mapBlock _ _ _ _ ?_ hn
      intro b hb
      cases b with
      | paragraph i c => rfl
      | heading i l c => rfl
      | list i o its => exact hb
      | checklist i its =>
          show wfBlockB (.checklist i
            (spliceInsert its _ (createChecklistItem (env.ids 0)))) = true
          simp only [wfBlockB, decide_eq_true_eq, spliceInsert_length]
          omega
  | removeChecklistItem nid blockId itemId =>
      simp only [editorReducer]
      apply all_wfNote_mapNote _ _ _ ?_ hs
      intro n _ hn
      apply wfNoteB_mapBlock _ _ _ _ ?_ hn
      intro b hb
      cases b with
      | paragraph i c => rfl
      | heading i l c => rfl
      | list i o its => exact hb
      | checklist i its =>
          show wfBlockB (.checklist i
            (if 0 < (its.filter fun it => !(it.id = itemId)).length
             then its.filter fun it => !(it.id = itemId)
             else [createChecklistItem (env.ids 0)])) = true
          simp only [wfBlockB, decide_eq_true_eq]
          split
          · next hc => exact hc
          · simp

/-- Refutation of C1 as stated: from a well-formed state, `ADD_BLOCK`
whose payload is a list block with an empty items array yields a state
holding a list block with `items.length = 0`. -/
theorem invariant_broken_cex :
    wfStateB
        (⟨[⟨"n1", "", "", [Block.paragraph "b1" [{ text := "" }]], 0, 0⟩],
          none⟩ : EditorState) = true ∧
    wfStateB (applySteps
        (⟨[⟨"n1", "", "", [Block.paragraph "b1" [{ text := "" }]], 0, 0⟩],
          none⟩ : EditorState)
        [(⟨1, fun _ => "x"⟩, .addBlock "n1" "b1" (.list "L" false []))])
      = false :=
  ⟨by decide, by decide⟩

/-- C1 (amended): starting from a well-formed state, any finite sequence
of reducer actions whose payloads are themselves well-formed (notes
supplied by `LOAD_NOTES`, blocks embedded in `ADD_BLOCK` and
`REPLACE_BLOCK`, and `UPDATE_BLOCK` patches never setting empty items)
preserves `blocks.length ≥ 1` for every note and `items.length ≥ 1` for
every list/checklist block. -/
theorem reducer_preserves_invariants (s : EditorState)
    (steps : List (Env × EditorAction))
    (hs : wfStateB s = true)
    (ha : ∀ p ∈ steps, wfActionB p.2 = true) :
    wfStateB (applySteps s steps) = true := by
  induction steps generalizing s with
  | nil => simpa [applySteps] using hs
  | cons p rest ih =>
      simp only [applySteps, List.foldl_cons]
      exact ih (editorReducer p.1 s p.2)
        (step_preserves_wf p.1 s p.2 hs (ha p (by simp)))
        (fun q hq => ha q (by simp [hq]))

/-- Witness for the amended C1: a concrete well-formed state survives a
two-action sequence (inserting a well-formed list block, then removing
its only item, which substitutes the placeholder). -/
theorem reducer_preserves_invariants_witness :
    wfStateB (applySteps
        (⟨[⟨"n1", "", "", [Block.paragraph "b1" [{ text := "" }]], 0, 0⟩],
          none⟩ : EditorState)
        [(⟨1, fun _ => "a"⟩,
            .addBlock "n1" "b1" (.list "L" true [some [{ text := "x" }]])),
         (⟨2, fun _ => "b"⟩, .removeListItem "n1" "L" 0)]) = true :=
  reducer_preserves_invariants _ _ (by decide) (by decide)

end Notee
